import Mathlib

/-
Verification development for the karton routing-and-consumption core,
src/karton/core/karton.py.  The Producer and Consumer operations are
embedded shallowly: every externally observable action (broker writes,
queue pushes, object-store uploads, state declarations, hook and handler
invocations, log lines) is recorded in an effect trace, and the fallible
steps (broker reads, record deserialization, user hooks and handlers)
are modelled with Except.  Parts of the repository that karton.py calls
but that are not part of this file (Task methods from task.py, the
broker client) are modelled from the spec and marked as such.
-/

namespace Karton

/-- Task priority levels, ordered HIGH / NORMAL / LOW as in the data model. -/
inductive TaskPriority where
  | high
  | normal
  | low
deriving DecidableEq

/-- Modelled from the spec: the textual form of a priority level, as it is
rendered into the per-identity priority queue key (the TaskPriority string
constants live in task.py, which is outside src). -/
def TaskPriority.str : TaskPriority → String
  | TaskPriority.high => "high"
  | TaskPriority.normal => "normal"
  | TaskPriority.low => "low"

/-- Task lifecycle markers reported to the broker. -/
inductive TaskState where
  | started
  | finished
deriving DecidableEq

/-- Exceptions raised by the modelled operations: broker transport failures,
malformed task records, and failures inside user-supplied handlers or hooks. -/
inductive KErr where
  | transport (msg : String)
  | serialization (msg : String)
  | handlerFailed (msg : String)
  | hookFailed (msg : String)
deriving DecidableEq

/-- Modelled from the spec: a payload resource is either Local (pending
upload, optional target bucket) or Remote (already stored); resource.py is
outside src. -/
inductive KResource where
  | localRes (rname : String) (bucket : Option String)
  | remoteRes (rname : String) (bucket : String)
deriving DecidableEq

/-- Whether a resource is a LocalResource. -/
def KResource.isLocal : KResource → Bool
  | KResource.localRes _ _ => true
  | KResource.remoteRes _ _ => false

/-- The name of a resource. -/
def KResource.rname : KResource → String
  | KResource.localRes n _ => n
  | KResource.remoteRes n _ => n

/-- Association-list lookup, the model of string-keyed dictionary access
used for headers, payload and binds. -/
def alookup : List (String × String) → String → Option String
  | [], _ => none
  | kv :: rest, k => if kv.1 == k then some kv.2 else alookup rest k

/-- Association-list update, the model of dict.update with a single key:
replaces the value under an existing key, otherwise appends the pair. -/
def aupdate (m : List (String × String)) (k v : String) : List (String × String) :=
  if (alookup m k).isSome then
    m.map (fun kv => if kv.1 == k then (k, v) else kv)
  else
    m ++ [(k, v)]

/-- The serializable unit of work.  Resource-valued payload entries are kept
in a separate field so that iterate_resources and the plain payload mapping
can both be modelled; the remaining fields follow the data model. -/
structure Task where
  uid : String
  headers : List (String × String)
  payload : List (String × String)
  payloadPersistent : List (String × String)
  resources : List KResource
  priority : TaskPriority
  parentUid : Option String
  lastUpdate : Option Nat
  asynchronic : Bool
deriving DecidableEq

/-- Modelled from the spec: set_task_parent (task.py, outside src) stamps
the parent reference of the task to the given parent task. -/
def Task.set_task_parent (t parent : Task) : Task :=
  { t with parentUid := some parent.uid }

/-- Modelled from the spec: merge_persistent_payload (task.py, outside src)
merges the persistent-payload fields of the parent into the payload of the
task, the own fields of the task winning on key collision; the persistent
field set itself is carried forward the same way so descendants inherit it. -/
def Task.merge_persistent_payload (t parent : Task) : Task :=
  { t with
    payload := t.payload ++
      parent.payloadPersistent.filter (fun kv => (alookup t.payload kv.1).isNone),
    payloadPersistent := t.payloadPersistent ++
      parent.payloadPersistent.filter (fun kv => (alookup t.payloadPersistent kv.1).isNone) }

/-- Modelled from the spec: matches_bind (task.py, outside src) tests whether
the headers of the task satisfy one bind, a mapping of required header values. -/
def Task.matches_bind (t : Task) (bind : List (String × String)) : Bool :=
  bind.all (fun kv => alookup t.headers kv.1 == some kv.2)

/-- Modelled from the spec: self-describing serialization of the task record.
The claims depend only on when the record is written, never on the wire
format, so a plain field rendering is used. -/
def Task.serialize (t : Task) : String :=
  "uid=" ++ t.uid ++
  ";parent=" ++ (match t.parentUid with | some u => u | none => "") ++
  ";priority=" ++ t.priority.str ++
  ";headers=" ++ String.join (t.headers.map (fun kv => kv.1 ++ ":" ++ kv.2 ++ ",")) ++
  ";payload=" ++ String.join (t.payload.map (fun kv => kv.1 ++ ":" ++ kv.2 ++ ",")) ++
  ";asynchronic=" ++ (if t.asynchronic then "1" else "0")

/-- The well-known unrouted dispatch queue, TASKS_QUEUE in the source. -/
def TASKS_QUEUE : String := "karton.tasks"

/-- The per-task record key format: the source constant is the string
"karton.task:", concatenated with the task uid. -/
def TASK_KEY : String := "karton.task:"

/-- Metrics hash for produced tasks. -/
def METRICS_PRODUCED : String := "karton.metrics.produced"

/-- Metrics hash for consumed tasks. -/
def METRICS_CONSUMED : String := "karton.metrics.consumed"

/-- Metrics hash for errored tasks. -/
def METRICS_ERRORED : String := "karton.metrics.errored"

/-- Externally observable actions of the Producer and Consumer operations,
in the order the source performs them. -/
inductive Effect where
  | logDebug (msg : String)
  | logInfo (msg : String)
  | logException (msg : String)
  | rsSet (key : String) (value : String)
  | uploadResource (rname : String)
  | rpush (queue : String) (value : String)
  | hincrby (hash : String) (field : String) (amount : Nat)
  | declareState (uid : String) (state : TaskState) (identity : String)
  | setLogTask (uid : Option String)
  | preHookCall (hook : Option String) (uid : String)
  | handlerCall (arg : Option Task)
  | postHookCall (hook : Option String) (uid : String) (exc : Option KErr)
deriving DecidableEq

/-- Whether an effect is the broker write of the serialized task record. -/
def Effect.isTaskWrite : Effect → Bool
  | Effect.rsSet _ _ => true
  | _ => false

/-- Whether an effect is an object-store upload of a local resource. -/
def Effect.isUpload : Effect → Bool
  | Effect.uploadResource _ => true
  | _ => false

/-- Whether an effect is a queue push. -/
def Effect.isQueuePush : Effect → Bool
  | Effect.rpush _ _ => true
  | _ => false

/-- Whether an effect is a post-hook invocation. -/
def Effect.isPostHookCall : Effect → Bool
  | Effect.postHookCall _ _ _ => true
  | _ => false

/-- The Producer fields send_task reads: its identity, the current-task
context, and the default object-store bucket from the configuration. -/
structure ProducerState where
  identity : String
  currentTask : Option Task
  defaultBucket : String

/-- The object-store uploads performed by the upload loop of send_task:
one per LocalResource of the task, in payload order. -/
def uploadEffects (rs : List KResource) : List Effect :=
  rs.filterMap (fun r =>
    match r with
    | KResource.localRes n _ => some (Effect.uploadResource n)
    | KResource.remoteRes _ _ => none)

/-- The effect trace of send_task, given the task as received and the task
as mutated by dispatch stamping (source order: record write, resource
uploads, queue push, produced counter). -/
def sendEffects (p : ProducerState) (task t3 : Task) : List Effect :=
  [Effect.logDebug ("Dispatched task " ++ task.uid),
   Effect.rsSet (TASK_KEY ++ t3.uid) (Task.serialize t3)]
  ++ uploadEffects t3.resources
  ++ [Effect.rpush TASKS_QUEUE t3.uid,
      Effect.hincrby METRICS_PRODUCED p.identity 1]

/-- Producer.send_task: stamps parent, persistent payload and priority from
the current task when one is set, stamps last_update and the origin header,
assigns the default bucket to bucketless local resources, then writes the
record, uploads local resources, pushes the uid and bumps the counter.
Returns the mutated task and the effect trace. -/
def send_task (p : ProducerState) (task : Task) (now : Nat) : Task × List Effect :=
  let t1 :=
    match p.currentTask with
    | some ct =>
      { Task.merge_persistent_payload (Task.set_task_parent task ct) ct with
        priority := ct.priority }
    | none => task
  let t2 :=
    { t1 with
      lastUpdate := some now,
      headers := aupdate t1.headers "origin" p.identity }
  let t3 :=
    { t2 with
      resources := t2.resources.map (fun r =>
        match r with
        | KResource.localRes n none => KResource.localRes n (some p.defaultBucket)
        | other => other) }
  (t3, sendEffects p task t3)

/-- Producer.continue_asynchronic: a generator context manager with a bare
yield.  The caller-supplied unit of work is given by its outcome; on a
normal outcome the code after the yield runs (optional FINISHED declaration,
then restoring the previous current task and log-handler task); on an
exception the generator is resumed by throwing at the yield point and, the
yield not being wrapped in try/finally, the code after it never runs.
Returns the effect trace, the outcome, and the final current-task context. -/
def continue_asynchronic (identity : String) (oldCurrent : Option Task)
    (task : Task) (finish : Bool) (body : Except KErr Unit) :
    List Effect × Except KErr Unit × Option Task :=
  match body with
  | Except.error e =>
    ([Effect.setLogTask (some task.uid)], Except.error e, some task)
  | Except.ok _ =>
    ([Effect.setLogTask (some task.uid)]
      ++ (if finish then [Effect.declareState task.uid TaskState.finished identity] else [])
      ++ [Effect.setLogTask (oldCurrent.map Task.uid)],
     Except.ok (),
     oldCurrent)

/-- The Consumer configuration internal_process and loop read: identity, the
declared ordered bind set, the broker read (fallible: transport failure),
the record deserializer (fallible: malformed record), the detected handler
arity, the handler outcome, and the registered pre/post hooks with their
optional names and fallible callbacks. -/
structure ConsumerEnv where
  identity : String
  filters : List (List (String × String))
  rsGet : String → Except KErr String
  unserialize : String → Except KErr Task
  argNum : Nat
  processResult : Option Task → Except KErr Unit
  preHooks : List (Option String × (Task → Except KErr Unit))
  postHooks : List (Option String × (Task → Option KErr → Except KErr Unit))

/-- The log line for a failed pre-hook, named or not. -/
def preHookFailMsg : Option String → String
  | some n => "Pre-hook (" ++ n ++ ") failed"
  | none => "Pre-hook failed"

/-- The log line for a failed post-hook, named or not. -/
def postHookFailMsg : Option String → String
  | some n => "Post-hook (" ++ n ++ ") failed"
  | none => "Post-hook failed"

/-- Consumer._run_pre_hooks: every registered pre-hook is invoked with the
task; a hook that raises is logged and isolated. -/
def _run_pre_hooks (hooks : List (Option String × (Task → Except KErr Unit)))
    (t : Task) : List Effect :=
  hooks.flatMap (fun h =>
    Effect.preHookCall h.1 t.uid ::
      (match h.2 t with
       | Except.ok _ => []
       | Except.error _ => [Effect.logException (preHookFailMsg h.1)]))

/-- Consumer._run_post_hooks: every registered post-hook is invoked with the
task and the exception-or-none; a hook that raises is logged and isolated. -/
def _run_post_hooks (hooks : List (Option String × (Task → Option KErr → Except KErr Unit)))
    (t : Task) (exc : Option KErr) : List Effect :=
  hooks.flatMap (fun h =>
    Effect.postHookCall h.1 t.uid exc ::
      (match h.2 t exc with
       | Except.ok _ => []
       | Except.error _ => [Effect.logException (postHookFailMsg h.1)]))

/-- The saved_exception variable of internal_process: the exception raised
by the handler, or none. -/
def savedExc : Except KErr Unit → Option KErr
  | Except.ok _ => none
  | Except.error e => some e

/-- The argument the handler is invoked with: none when the detected arity
is zero, otherwise the current task. -/
def processArg (argNum : Nat) (t : Task) : Option Task :=
  if argNum == 0 then none else some t

/-- The effects after the inner try/finally of internal_process: on a
normal handler outcome the done log, on a handler exception the
errored-counter increment and error log performed by the outer except
clause that receives the re-raised exception. -/
def handlerOutcomeEffects (env : ConsumerEnv) (t : Task) : List Effect :=
  match savedExc (env.processResult (processArg env.argNum t)) with
  | none => [Effect.logInfo ("Task done - " ++ t.uid)]
  | some _ =>
    [Effect.hincrby METRICS_ERRORED env.identity 1,
     Effect.logException ("Failed to process task - " ++ t.uid)]

/-- The effects of the outer finally clause of internal_process: the
consumed counter and, unless the task is asynchronic, the FINISHED
declaration. -/
def finalizeEffects (env : ConsumerEnv) (t : Task) : List Effect :=
  Effect.hincrby METRICS_CONSUMED env.identity 1 ::
    (if t.asynchronic then []
     else [Effect.declareState t.uid TaskState.finished env.identity])

/-- The effect trace of the try/except/finally body of internal_process for
a task that matched a bind: STARTED declaration, pre-hooks, handler,
post-hooks with the saved exception, then the done or errored branch, then
the finalization. -/
def matchedEffects (env : ConsumerEnv) (t : Task) : List Effect :=
  [Effect.logInfo ("Received new task - " ++ t.uid),
   Effect.declareState t.uid TaskState.started env.identity]
  ++ _run_pre_hooks env.preHooks t
  ++ [Effect.handlerCall (processArg env.argNum t)]
  ++ _run_post_hooks env.postHooks t (savedExc (env.processResult (processArg env.argNum t)))
  ++ handlerOutcomeEffects env t
  ++ finalizeEffects env t

/-- Consumer.internal_process: fetches and deserializes the task record
(both outside any try block: a failure escapes as the error outcome), sets
the log-handler task, tests the binds in declared order, and either rejects
with an immediate FINISHED declaration or runs the matched-task pipeline. -/
def internal_process (env : ConsumerEnv) (data : String) :
    List Effect × Except KErr Unit :=
  match env.rsGet (TASK_KEY ++ data) with
  | Except.error e => ([], Except.error e)
  | Except.ok raw =>
    match env.unserialize raw with
    | Except.error e => ([], Except.error e)
    | Except.ok t =>
      match env.filters.find? (fun b => t.matches_bind b) with
      | none =>
        ([Effect.setLogTask (some t.uid),
          Effect.logInfo "Task rejected because binds are no longer valid.",
          Effect.declareState t.uid TaskState.finished env.identity],
         Except.ok ())
      | some _ =>
        (Effect.setLogTask (some t.uid) :: matchedEffects env t, Except.ok ())

/-- The per-identity priority queue key: the well-known parameterized
format from the source, "karton.queue." with the priority and identity. -/
def consumerQueueName (p : TaskPriority) (identity : String) : String :=
  "karton.queue." ++ p.str ++ ":" ++ identity

/-- The list of queues the consumer loop passes to the blocking pop, in
source order: the legacy identity-named queue first (kept for backwards
compatibility), then the HIGH, NORMAL and LOW priority queues. -/
def consumerPollQueues (identity : String) : List String :=
  [identity,
   consumerQueueName TaskPriority.high identity,
   consumerQueueName TaskPriority.normal identity,
   consumerQueueName TaskPriority.low identity]

/-- Modelled from the spec: the broker provides an atomic blocking pop
across several named lists, returning an element from the first named list
that is non-empty, or nothing on timeout. -/
def blpop (queues : List String) (st : String → List String) :
    Option (String × String) :=
  match queues with
  | [] => none
  | q :: rest =>
    match st q with
    | [] => blpop rest st
    | v :: _ => some (q, v)

/-- The outcome of one wake of the consumer loop: clean exits for shutdown
and a superseded registration, a timeout continuation, a processed task
continuation, or termination by an exception that internal_process let
escape (the loop catches and re-raises only KeyboardInterrupt, so any such
exception ends the loop). -/
inductive LoopStep where
  | exitShutdown
  | exitBindsChanged
  | timeoutContinue
  | processed (effects : List Effect)
  | crashed (e : KErr)
deriving DecidableEq

/-- One wake of Consumer.loop: check the shutdown flag, compare the live
registration for this identity against our own, block-pop the poll queues,
and run internal_process on a popped task id. -/
def loopIteration (env : ConsumerEnv) (shutdown : Bool)
    (liveRegistration ownRegistration : String) (st : String → List String) :
    LoopStep :=
  if shutdown then LoopStep.exitShutdown
  else if liveRegistration != ownRegistration then LoopStep.exitBindsChanged
  else
    match blpop (consumerPollQueues env.identity) st with
    | none => LoopStep.timeoutContinue
    | some (_, data) =>
      match internal_process env data with
      | (effects, Except.ok _) => LoopStep.processed effects
      | (_, Except.error e) => LoopStep.crashed e

/-- Concrete task used by the witnesses: one local resource, matched by the
sample bind. -/
def wTask : Task :=
  { uid := "u1",
    headers := [("type", "sample")],
    payload := [("b", "9")],
    payloadPersistent := [],
    resources := [KResource.localRes "sample" none],
    priority := TaskPriority.high,
    parentUid := none,
    lastUpdate := none,
    asynchronic := false }

/-- Concrete task rejected by the sample bind set. -/
def wTaskNoMatch : Task :=
  { uid := "u2",
    headers := [("type", "config")],
    payload := [],
    payloadPersistent := [],
    resources := [],
    priority := TaskPriority.normal,
    parentUid := none,
    lastUpdate := none,
    asynchronic := false }

/-- Concrete asynchronic task matched by the sample bind set. -/
def wTaskAsync : Task :=
  { uid := "u3",
    headers := [("type", "sample")],
    payload := [],
    payloadPersistent := [],
    resources := [],
    priority := TaskPriority.normal,
    parentUid := none,
    lastUpdate := none,
    asynchronic := true }

/-- Concrete parent task with persistent payload, used as the current-task
context of the producer witnesses. -/
def wParent : Task :=
  { uid := "p1",
    headers := [],
    payload := [],
    payloadPersistent := [("a", "1"), ("b", "2")],
    resources := [],
    priority := TaskPriority.low,
    parentUid := none,
    lastUpdate := none,
    asynchronic := false }

/-- Concrete producer with no current task. -/
def wProducer : ProducerState :=
  { identity := "karton.test", currentTask := none, defaultBucket := "karton" }

/-- Concrete producer handling wParent as its current task. -/
def wProducerCtx : ProducerState :=
  { identity := "karton.test", currentTask := some wParent, defaultBucket := "karton" }

/-- Concrete consumer environment: one bind on type sample, a broker map
serving the three witness tasks, arity one, a succeeding handler, one
failing named pre-hook and one anonymous post-hook. -/
def wEnv : ConsumerEnv :=
  { identity := "karton.test",
    filters := [[("type", "sample")]],
    rsGet := fun k =>
      if k == "karton.task:u1" then Except.ok "raw1"
      else if k == "karton.task:u2" then Except.ok "raw2"
      else if k == "karton.task:u3" then Except.ok "raw3"
      else Except.error (KErr.transport "redis down"),
    unserialize := fun s =>
      if s == "raw1" then Except.ok wTask
      else if s == "raw2" then Except.ok wTaskNoMatch
      else if s == "raw3" then Except.ok wTaskAsync
      else Except.error (KErr.serialization "malformed record"),
    argNum := 1,
    processResult := fun _ => Except.ok (),
    preHooks := [(some "pre1", fun _ => Except.error (KErr.hookFailed "pre1 broke"))],
    postHooks := [(none, fun _ _ => Except.ok ())] }

/-- Concrete consumer environment whose handler raises. -/
def wEnvFail : ConsumerEnv :=
  { wEnv with processResult := fun _ => Except.error (KErr.handlerFailed "proc broke") }

/-- Concrete consumer environment whose post-hook raises. -/
def wEnvPostFail : ConsumerEnv :=
  { wEnv with
    postHooks := [(some "post1", fun _ _ => Except.error (KErr.hookFailed "post1 broke"))] }

/-- Concrete consumer environment whose broker read always fails. -/
def wEnvDown : ConsumerEnv :=
  { wEnv with rsGet := fun _ => Except.error (KErr.transport "redis down") }

/-- Concrete consumer environment whose broker serves a record the
deserializer rejects. -/
def wEnvBadRecord : ConsumerEnv :=
  { wEnv with rsGet := fun _ => Except.ok "garbage" }

/-- Concrete queue state: one task id waiting in the legacy queue. -/
def wQueuesLegacy : String → List String :=
  fun q => if q == "karton.test" then ["u1"] else []

/-- Concrete queue state: task ids waiting in the legacy queue and in the
HIGH priority queue at the same time. -/
def wQueuesBoth : String → List String :=
  fun q =>
    if q == "karton.test" then ["u1"]
    else if q == "karton.queue.high:karton.test" then ["u9"]
    else []


/-- Elements of the object-store upload trace are upload effects. -/
theorem mem_uploadEffects_shape (rs : List KResource) :
    ∀ e ∈ uploadEffects rs, ∃ n, e = Effect.uploadResource n := by
  intro e he
  rcases List.mem_filterMap.mp he with ⟨r, hr, hf⟩
  cases r with
  | localRes n b =>
    refine ⟨n, ?_⟩
    have : some (Effect.uploadResource n) = some e := hf
    exact (Option.some.inj this).symm
  | remoteRes n b => exact absurd hf (by simp)

/-- Every local resource of the list contributes an upload effect. -/
theorem uploadEffects_mem_of_local (rs : List KResource) (r : KResource)
    (hr : r ∈ rs) (hl : r.isLocal = true) :
    Effect.uploadResource r.rname ∈ uploadEffects rs := by
  apply List.mem_filterMap.mpr
  refine ⟨r, hr, ?_⟩
  cases r with
  | localRes n b => rfl
  | remoteRes n b => simp [KResource.isLocal] at hl

/-- Ordering helper: when one predicate only holds in the left part of an
append and the other only in the right part, any index satisfying the first
comes before any index satisfying the second. -/
theorem split_before {α : Type} (xs ys : List α) (p1 p2 : α → Prop)
    (h1 : ∀ e ∈ ys, ¬ p1 e) (h2 : ∀ e ∈ xs, ¬ p2 e) :
    ∀ (i j : Nat) (e1 e2 : α), (xs ++ ys)[i]? = some e1 → p1 e1 →
      (xs ++ ys)[j]? = some e2 → p2 e2 → i < j := by
  intro i j e1 e2 hi hp1 hj hp2
  have hilt : i < xs.length := by
    by_contra hc
    rw [List.getElem?_append_right (Nat.le_of_not_lt hc)] at hi
    exact h1 e1 (List.getElem?_mem hi) hp1
  have hjge : xs.length ≤ j := by
    by_contra hc
    rw [List.getElem?_append_left (Nat.lt_of_not_le hc)] at hj
    exact h2 e2 (List.getElem?_mem hj) hp2
  exact Nat.lt_of_lt_of_le hilt hjge

/-- A find? result is present exactly when some element satisfies the
predicate: the searched decision equals the any decision. -/
theorem find?_isSome_eq_any {α : Type} (l : List α) (p : α → Bool) :
    (l.find? p).isSome = l.any p := by
  induction l with
  | nil => rfl
  | cons a rest ih =>
    cases h : p a with
    | true => rw [List.find?_cons_of_pos _ h]; simp [h]
    | false => rw [List.find?_cons_of_neg _ (by simp [h])]; simp [h, ih]

/-- C1: the spec demands that continue_asynchronic restore the previous
current-task context on every exit path and, with finish left true, emit a
FINISHED transition even when the unit of work raises.  The source is a
generator context manager whose yield is not wrapped in try/finally, so on
an exception the post-yield code is skipped: the context stays set to the
resumed task and no FINISHED transition is emitted, while on a normal close
both do happen.  This theorem evaluates the embedding at that failing input. -/
theorem continue_asynchronic_raise_skips_restore_and_finish :
    (continue_asynchronic "karton.test" none wTask true
        (Except.error (KErr.handlerFailed "boom"))).2.2 = some wTask ∧
    (continue_asynchronic "karton.test" none wTask true
        (Except.error (KErr.handlerFailed "boom"))).2.2 ≠ none ∧
    Effect.declareState wTask.uid TaskState.finished "karton.test" ∉
      (continue_asynchronic "karton.test" none wTask true
        (Except.error (KErr.handlerFailed "boom"))).1 ∧
    (continue_asynchronic "karton.test" none wTask true (Except.ok ())).2.2 = none ∧
    Effect.declareState wTask.uid TaskState.finished "karton.test" ∈
      (continue_asynchronic "karton.test" none wTask true (Except.ok ())).1 := by
  refine ⟨rfl, by decide, by decide, rfl, by decide⟩

/-- C2 counterexample: with a task id waiting in the HIGH priority queue and
another in the legacy identity-named queue, the poll pops from the legacy
queue, so the HIGH queue is not drained first as the claim states. -/
theorem poll_order_cex :
    blpop (consumerPollQueues "karton.test") wQueuesBoth
      = some ("karton.test", "u1") ∧
    wQueuesBoth (consumerQueueName TaskPriority.high "karton.test") = ["u9"] ∧
    "karton.test" ≠ consumerQueueName TaskPriority.high "karton.test" := by
  refine ⟨rfl, rfl, by decide⟩

/-- C2 (amended): on every wake the queues of the identity are drained in
the source order legacy first, then HIGH, then NORMAL, then LOW: the pop
returns from the first non-empty queue in that order, and returns nothing
only when all four are empty. -/
theorem poll_drain_order (identity : String) (st : String → List String) :
    (∀ v rest, st identity = v :: rest →
      blpop (consumerPollQueues identity) st = some (identity, v)) ∧
    (∀ v rest, st identity = [] →
      st (consumerQueueName TaskPriority.high identity) = v :: rest →
      blpop (consumerPollQueues identity) st
        = some (consumerQueueName TaskPriority.high identity, v)) ∧
    (∀ v rest, st identity = [] →
      st (consumerQueueName TaskPriority.high identity) = [] →
      st (consumerQueueName TaskPriority.normal identity) = v :: rest →
      blpop (consumerPollQueues identity) st
        = some (consumerQueueName TaskPriority.normal identity, v)) ∧
    (∀ v rest, st identity = [] →
      st (consumerQueueName TaskPriority.high identity) = [] →
      st (consumerQueueName TaskPriority.normal identity) = [] →
      st (consumerQueueName TaskPriority.low identity) = v :: rest →
      blpop (consumerPollQueues identity) st
        = some (consumerQueueName TaskPriority.low identity, v)) ∧
    (st identity = [] →
      st (consumerQueueName TaskPriority.high identity) = [] →
      st (consumerQueueName TaskPriority.normal identity) = [] →
      st (consumerQueueName TaskPriority.low identity) = [] →
      blpop (consumerPollQueues identity) st = none) := by
  refine ⟨?_, ?_, ?_, ?_, ?_⟩
  · intro v rest h1
    simp [blpop, consumerPollQueues, h1]
  · intro v rest h1 h2
    simp [blpop, consumerPollQueues, h1, h2]
  · intro v rest h1 h2 h3
    simp [blpop, consumerPollQueues, h1, h2, h3]
  · intro v rest h1 h2 h3 h4
    simp [blpop, consumerPollQueues, h1, h2, h3, h4]
  · intro h1 h2 h3 h4
    simp [blpop, consumerPollQueues, h1, h2, h3, h4]

/-- C2 witness: concrete queue state with the legacy queue non-empty. -/
theorem poll_drain_order_witness :
    wQueuesBoth "karton.test" = "u1" :: [] ∧
    blpop (consumerPollQueues "karton.test") wQueuesBoth
      = some ("karton.test", "u1") :=
  ⟨rfl, (poll_drain_order "karton.test" wQueuesBoth).1 "u1" [] rfl⟩

/-- C3 counterexample: with a task id waiting in the legacy queue and a
broker whose read fails, the wake of the loop ends with the exception
escaping (the loop catches only KeyboardInterrupt, which it re-raises), not
with a continuation to the next iteration as the claim states. -/
theorem loop_crash_cex :
    loopIteration wEnvDown false "reg" "reg" wQueuesLegacy
      = LoopStep.crashed (KErr.transport "redis down") ∧
    LoopStep.crashed (KErr.transport "redis down") ≠ LoopStep.timeoutContinue := by
  refine ⟨rfl, by decide⟩

/-- C3 (amended): a transport failure fetching the task record, or a
serialization failure deserializing it, happens before the try block of
internal_process: the exception escapes internal_process and the wake of
the loop ends crashed, terminating the consumption loop rather than
continuing to its next iteration. -/
theorem fetch_failure_terminates_loop (env : ConsumerEnv) (data : String)
    (e : KErr) (st : String → List String) (q reg : String)
    (hpop : blpop (consumerPollQueues env.identity) st = some (q, data)) :
    (env.rsGet (TASK_KEY ++ data) = Except.error e →
      internal_process env data = ([], Except.error e) ∧
      loopIteration env false reg reg st = LoopStep.crashed e) ∧
    (∀ raw, env.rsGet (TASK_KEY ++ data) = Except.ok raw →
      env.unserialize raw = Except.error e →
      internal_process env data = ([], Except.error e) ∧
      loopIteration env false reg reg st = LoopStep.crashed e) := by
  constructor
  · intro hg
    have hip : internal_process env data = ([], Except.error e) := by
      simp [internal_process, hg]
    refine ⟨hip, ?_⟩
    simp [loopIteration, hpop, hip]
  · intro raw hg hu
    have hip : internal_process env data = ([], Except.error e) := by
      simp [internal_process, hg, hu]
    refine ⟨hip, ?_⟩
    simp [loopIteration, hpop, hip]

/-- C3 witness: concrete crashing wakes, one for a transport failure and
one for a malformed record. -/
theorem fetch_failure_terminates_loop_witness :
    wEnvDown.rsGet (TASK_KEY ++ "u1") = Except.error (KErr.transport "redis down") ∧
    loopIteration wEnvDown false "reg" "reg" wQueuesLegacy
      = LoopStep.crashed (KErr.transport "redis down") ∧
    wEnvBadRecord.unserialize "garbage"
      = Except.error (KErr.serialization "malformed record") ∧
    loopIteration wEnvBadRecord false "reg" "reg" wQueuesLegacy
      = LoopStep.crashed (KErr.serialization "malformed record") :=
  ⟨rfl,
   ((fetch_failure_terminates_loop wEnvDown "u1" (KErr.transport "redis down")
      wQueuesLegacy "karton.test" "reg" rfl).1 rfl).2,
   rfl,
   ((fetch_failure_terminates_loop wEnvBadRecord "u1"
      (KErr.serialization "malformed record")
      wQueuesLegacy "karton.test" "reg" rfl).2 "garbage" rfl rfl).2⟩


/-- Dispatch stamping never changes the task uid. -/
theorem send_task_uid (p : ProducerState) (t : Task) (now : Nat) :
    (send_task p t now).1.uid = t.uid := by
  cases hc : p.currentTask <;>
    simp [send_task, hc, Task.merge_persistent_payload, Task.set_task_parent]

/-- Lookup distributes over append as an ordered choice. -/
theorem alookup_append (l1 l2 : List (String × String)) (k : String) :
    alookup (l1 ++ l2) k = (alookup l1 k).or (alookup l2 k) := by
  induction l1 with
  | nil => simp [alookup, Option.or]
  | cons kv rest ih =>
    cases h : kv.1 == k with
    | true => simp [alookup, h, Option.or]
    | false => simp [alookup, h, ih]

/-- Filtering out entries whose key is already bound elsewhere does not
change lookups of a key that is not bound there. -/
theorem alookup_filter_of_none (tp pp : List (String × String)) (k : String)
    (h : alookup tp k = none) :
    alookup (pp.filter (fun kv => (alookup tp kv.1).isNone)) k = alookup pp k := by
  induction pp with
  | nil => rfl
  | cons kv rest ih =>
    cases hk : kv.1 == k with
    | true =>
      have hkey : kv.1 = k := eq_of_beq hk
      have hnone : (alookup tp kv.1).isNone = true := by rw [hkey, h]; rfl
      simp [List.filter_cons, hnone, alookup, hk]
    | false =>
      cases hp : (alookup tp kv.1).isNone with
      | true => simp [List.filter_cons, hp, alookup, hk, ih]
      | false => simp [List.filter_cons, hp, alookup, hk, ih]

/-- Lookup in the persistent-payload merge: the own entry of the task wins,
otherwise the persistent entry of the parent is found. -/
theorem alookup_merge (tp pp : List (String × String)) (k : String) :
    alookup (tp ++ pp.filter (fun kv => (alookup tp kv.1).isNone)) k
      = (alookup tp k).or (alookup pp k) := by
  rw [alookup_append]
  cases h : alookup tp k with
  | none => rw [alookup_filter_of_none tp pp k h]
  | some v => rfl

/-- C4 counterexample: a concrete send pushes the task id onto the single
unrouted queue karton.tasks, which is neither the priority-specific queue
for the priority of the task nor any identity-named queue, refuting the
claim that send_task itself pushes onto a per-identity priority queue. -/
theorem send_task_queue_cex :
    (send_task wProducer wTask 7).2.filter Effect.isQueuePush
      = [Effect.rpush "karton.tasks" "u1"] ∧
    "karton.tasks" ≠ consumerQueueName TaskPriority.high "karton.test" ∧
    "karton.tasks" ≠ "karton.test" := by
  refine ⟨by decide, by decide, by decide⟩

/-- C4 (amended): for every task published via send_task, the task id is
pushed onto the single well-known unrouted tasks queue, and that is the
only queue push the call performs; routing onto per-identity priority
queues is not done by send_task. -/
theorem send_task_pushes_unrouted_queue (p : ProducerState) (t : Task) (now : Nat) :
    Effect.rpush TASKS_QUEUE t.uid ∈ (send_task p t now).2 ∧
    (∀ q v, Effect.rpush q v ∈ (send_task p t now).2 →
      q = TASKS_QUEUE ∧ v = t.uid) := by
  have hes : (send_task p t now).2 = sendEffects p t ((send_task p t now).1) := rfl
  have huid : (send_task p t now).1.uid = t.uid := send_task_uid p t now
  constructor
  · rw [hes]
    unfold sendEffects
    rw [huid]
    refine List.mem_append.mpr (Or.inr ?_)
    exact List.mem_cons_self _ _
  · intro q v hmem
    rw [hes] at hmem
    unfold sendEffects at hmem
    rcases List.mem_append.mp hmem with hL | hR
    · rcases List.mem_append.mp hL with hA | hU
      · simp at hA
      · rcases mem_uploadEffects_shape _ _ hU with ⟨n, hn⟩
        exact absurd hn (by simp)
    · rcases List.mem_cons.mp hR with heq | hR2
      · have hq : q = TASKS_QUEUE := by injection heq with h1 h2
        have hv : v = (send_task p t now).1.uid := by injection heq with h1 h2
        exact ⟨hq, hv.trans huid⟩
      · simp at hR2

/-- C4 witness: the concrete producer pushes u1 onto karton.tasks, and the
only push in the trace is to that queue. -/
theorem send_task_pushes_unrouted_queue_witness :
    Effect.rpush TASKS_QUEUE "u1" ∈ (send_task wProducer wTask 7).2 ∧
    ("karton.tasks" = TASKS_QUEUE ∧ "u1" = "u1") :=
  ⟨(send_task_pushes_unrouted_queue wProducer wTask 7).1,
   (send_task_pushes_unrouted_queue wProducer wTask 7).2 "karton.tasks" "u1" (by decide)⟩

/-- C5: for every task published via send_task, the serialized record write
to the broker comes before every local-resource upload and before the queue
push, every upload comes before the queue push, and every local resource of
the dispatched task is uploaded: the write-then-publish ordering. -/
theorem send_task_write_then_publish (p : ProducerState) (t : Task) (now : Nat) :
    (∀ (i j : Nat) (e1 e2 : Effect),
      ((send_task p t now).2)[i]? = some e1 → e1.isTaskWrite = true →
      ((send_task p t now).2)[j]? = some e2 →
      (e2.isUpload = true ∨ e2.isQueuePush = true) → i < j) ∧
    (∀ (i j : Nat) (e1 e2 : Effect),
      ((send_task p t now).2)[i]? = some e1 → e1.isUpload = true →
      ((send_task p t now).2)[j]? = some e2 → e2.isQueuePush = true → i < j) ∧
    (∀ r ∈ (send_task p t now).1.resources, r.isLocal = true →
      Effect.uploadResource r.rname ∈ (send_task p t now).2) := by
  have hes : (send_task p t now).2 = sendEffects p t ((send_task p t now).1) := rfl
  refine ⟨?_, ?_, ?_⟩
  · rw [hes]
    unfold sendEffects
    rw [List.append_assoc]
    refine split_before _ _ _ _ ?_ ?_
    · intro e he hw
      rcases List.mem_append.mp he with hU | hT
      · rcases mem_uploadEffects_shape _ _ hU with ⟨n, rfl⟩
        simp [Effect.isTaskWrite] at hw
      · rcases List.mem_cons.mp hT with rfl | hT2
        · simp [Effect.isTaskWrite] at hw
        · rcases List.mem_cons.mp hT2 with rfl | hT3
          · simp [Effect.isTaskWrite] at hw
          · simp at hT3
    · intro e he hp
      rcases List.mem_cons.mp he with rfl | he2
      · rcases hp with h | h <;> simp [Effect.isUpload, Effect.isQueuePush] at h
      · rcases List.mem_cons.mp he2 with rfl | he3
        · rcases hp with h | h <;> simp [Effect.isUpload, Effect.isQueuePush] at h
        · simp at he3
  · rw [hes]
    unfold sendEffects
    refine split_before _ _ _ _ ?_ ?_
    · intro e he hu
      rcases List.mem_cons.mp he with rfl | he2
      · simp [Effect.isUpload] at hu
      · rcases List.mem_cons.mp he2 with rfl | he3
        · simp [Effect.isUpload] at hu
        · simp at he3
    · intro e he hp
      rcases List.mem_append.mp he with hA | hU
      · rcases List.mem_cons.mp hA with rfl | hA2
        · simp [Effect.isQueuePush] at hp
        · rcases List.mem_cons.mp hA2 with rfl | hA3
          · simp [Effect.isQueuePush] at hp
          · simp at hA3
      · rcases mem_uploadEffects_shape _ _ hU with ⟨n, rfl⟩
        simp [Effect.isQueuePush] at hp
  · intro r hr hl
    rw [hes]
    unfold sendEffects
    refine List.mem_append.mpr (Or.inl (List.mem_append.mpr (Or.inr ?_)))
    exact uploadEffects_mem_of_local _ r hr hl

/-- C5 witness: in the concrete trace the record write sits at index 1, the
upload of the single local resource at index 2, and the push after both. -/
theorem send_task_write_then_publish_witness :
    ((send_task wProducer wTask 7).2)[1]?
      = some (Effect.rsSet (TASK_KEY ++ (send_task wProducer wTask 7).1.uid)
          (Task.serialize (send_task wProducer wTask 7).1)) ∧
    (1 : Nat) < 2 ∧ (2 : Nat) < 3 ∧
    Effect.uploadResource "sample" ∈ (send_task wProducer wTask 7).2 :=
  ⟨rfl,
   (send_task_write_then_publish wProducer wTask 7).1 1 2
     (Effect.rsSet (TASK_KEY ++ (send_task wProducer wTask 7).1.uid)
       (Task.serialize (send_task wProducer wTask 7).1))
     (Effect.uploadResource "sample") rfl rfl rfl (Or.inl rfl),
   (send_task_write_then_publish wProducer wTask 7).2.1 2 3
     (Effect.uploadResource "sample")
     (Effect.rpush TASKS_QUEUE "u1") rfl rfl rfl rfl,
   (send_task_write_then_publish wProducer wTask 7).2.2
     (KResource.localRes "sample" (some "karton")) (by decide) rfl⟩

/-- C6: for every task sent while a current task is set, the new task gets
the current task as parent, inherits the priority of the current task
regardless of the priority the caller set, and its payload lookup prefers
its own entries and falls back to the persistent-payload entries of the
current task. -/
theorem send_task_inherits_context (p : ProducerState) (task : Task) (now : Nat)
    (ct : Task) (hp : p.currentTask = some ct) :
    (send_task p task now).1.parentUid = some ct.uid ∧
    (send_task p task now).1.priority = ct.priority ∧
    (∀ k, alookup (send_task p task now).1.payload k
      = (alookup task.payload k).or (alookup ct.payloadPersistent k)) := by
  refine ⟨?_, ?_, ?_⟩
  · simp [send_task, hp, Task.merge_persistent_payload, Task.set_task_parent]
  · simp [send_task, hp, Task.merge_persistent_payload, Task.set_task_parent]
  · intro k
    have hpl : (send_task p task now).1.payload
        = task.payload ++
          ct.payloadPersistent.filter (fun kv => (alookup task.payload kv.1).isNone) := by
      simp [send_task, hp, Task.merge_persistent_payload, Task.set_task_parent]
    rw [hpl]
    exact alookup_merge task.payload ct.payloadPersistent k

/-- C6 witness: with wParent as current task, the sent task gets parent p1,
priority low (overriding its own high), keeps its own entry under b and
inherits the persistent entry under a. -/
theorem send_task_inherits_context_witness :
    wProducerCtx.currentTask = some wParent ∧
    (send_task wProducerCtx wTask 7).1.parentUid = some wParent.uid ∧
    (send_task wProducerCtx wTask 7).1.priority = wParent.priority ∧
    alookup (send_task wProducerCtx wTask 7).1.payload "a"
      = (alookup wTask.payload "a").or (alookup wParent.payloadPersistent "a") ∧
    alookup (send_task wProducerCtx wTask 7).1.payload "b"
      = (alookup wTask.payload "b").or (alookup wParent.payloadPersistent "b") :=
  ⟨rfl,
   (send_task_inherits_context wProducerCtx wTask 7 wParent rfl).1,
   (send_task_inherits_context wProducerCtx wTask 7 wParent rfl).2.1,
   (send_task_inherits_context wProducerCtx wTask 7 wParent rfl).2.2 "a",
   (send_task_inherits_context wProducerCtx wTask 7 wParent rfl).2.2 "b"⟩


/-- Every registered pre-hook is invoked by the pre-hook runner. -/
theorem preHookCall_mem_run (hooks : List (Option String × (Task → Except KErr Unit)))
    (t : Task) : ∀ h ∈ hooks, Effect.preHookCall h.1 t.uid ∈ _run_pre_hooks hooks t := by
  intro h hmem
  unfold _run_pre_hooks
  exact List.mem_flatMap.mpr ⟨h, hmem, List.mem_cons_self _ _⟩

/-- A failing pre-hook is logged by the pre-hook runner. -/
theorem preHook_fail_logged (hooks : List (Option String × (Task → Except KErr Unit)))
    (t : Task) : ∀ h ∈ hooks, ∀ e, h.2 t = Except.error e →
      Effect.logException (preHookFailMsg h.1) ∈ _run_pre_hooks hooks t := by
  intro h hmem e hfail
  unfold _run_pre_hooks
  apply List.mem_flatMap.mpr
  refine ⟨h, hmem, ?_⟩
  rw [hfail]
  simp

/-- Every registered post-hook is invoked by the post-hook runner, with the
given exception-or-none argument. -/
theorem postHookCall_mem_run
    (hooks : List (Option String × (Task → Option KErr → Except KErr Unit)))
    (t : Task) (exc : Option KErr) :
    ∀ h ∈ hooks, Effect.postHookCall h.1 t.uid exc ∈ _run_post_hooks hooks t exc := by
  intro h hmem
  unfold _run_post_hooks
  exact List.mem_flatMap.mpr ⟨h, hmem, List.mem_cons_self _ _⟩

/-- A failing post-hook is logged by the post-hook runner. -/
theorem postHook_fail_logged
    (hooks : List (Option String × (Task → Option KErr → Except KErr Unit)))
    (t : Task) (exc : Option KErr) :
    ∀ h ∈ hooks, ∀ e, h.2 t exc = Except.error e →
      Effect.logException (postHookFailMsg h.1) ∈ _run_post_hooks hooks t exc := by
  intro h hmem e hfail
  unfold _run_post_hooks
  apply List.mem_flatMap.mpr
  refine ⟨h, hmem, ?_⟩
  rw [hfail]
  simp

/-- The pre-hook runner emits only pre-hook invocations and exception logs. -/
theorem mem_run_pre_hooks_shape (hooks : List (Option String × (Task → Except KErr Unit)))
    (t : Task) : ∀ e ∈ _run_pre_hooks hooks t,
      (∃ n, e = Effect.preHookCall n t.uid) ∨ (∃ m, e = Effect.logException m) := by
  intro e he
  unfold _run_pre_hooks at he
  rcases List.mem_flatMap.mp he with ⟨h, _, hin⟩
  rcases List.mem_cons.mp hin with rfl | hin2
  · exact Or.inl ⟨h.1, rfl⟩
  · cases hres : h.2 t with
    | ok u => rw [hres] at hin2; simp at hin2
    | error er =>
      rw [hres] at hin2
      simp at hin2
      exact Or.inr ⟨_, hin2⟩

/-- The post-hook runner emits only post-hook invocations and exception logs. -/
theorem mem_run_post_hooks_shape
    (hooks : List (Option String × (Task → Option KErr → Except KErr Unit)))
    (t : Task) (exc : Option KErr) : ∀ e ∈ _run_post_hooks hooks t exc,
      (∃ n, e = Effect.postHookCall n t.uid exc) ∨ (∃ m, e = Effect.logException m) := by
  intro e he
  unfold _run_post_hooks at he
  rcases List.mem_flatMap.mp he with ⟨h, _, hin⟩
  rcases List.mem_cons.mp hin with rfl | hin2
  · exact Or.inl ⟨h.1, rfl⟩
  · cases hres : h.2 t exc with
    | ok u => rw [hres] at hin2; simp at hin2
    | error er =>
      rw [hres] at hin2
      simp at hin2
      exact Or.inr ⟨_, hin2⟩

/-- The after-handler segment holds only the done log or the errored
counter bump with its error log. -/
theorem mem_handlerOutcome_shape (env : ConsumerEnv) (t : Task) :
    ∀ e ∈ handlerOutcomeEffects env t,
      (∃ m, e = Effect.logInfo m) ∨
      e = Effect.hincrby METRICS_ERRORED env.identity 1 ∨
      (∃ m, e = Effect.logException m) := by
  intro e he
  unfold handlerOutcomeEffects at he
  cases hs : savedExc (env.processResult (processArg env.argNum t)) with
  | none =>
    rw [hs] at he
    simp at he
    exact Or.inl ⟨_, he⟩
  | some er =>
    rw [hs] at he
    simp at he
    rcases he with rfl | rfl
    · exact Or.inr (Or.inl rfl)
    · exact Or.inr (Or.inr ⟨_, rfl⟩)

/-- An effect flagged as a post-hook invocation is one. -/
theorem postHookCall_of_isPostHookCall (e : Effect) (h : e.isPostHookCall = true) :
    ∃ n u x, e = Effect.postHookCall n u x := by
  cases e <;> simp [Effect.isPostHookCall] at h
  exact ⟨_, _, _, rfl⟩

/-- C7: for every fetched and deserialized task, when no declared bind
matches the headers, internal_process emits exactly the rejection log and
an immediate FINISHED declaration and stops; the handler is invoked only
when some bind matches, and the first-match search succeeds exactly when
some bind in the declared set matches. -/
theorem internal_process_bind_matching (env : ConsumerEnv) (data raw : String)
    (t : Task)
    (hget : env.rsGet (TASK_KEY ++ data) = Except.ok raw)
    (hdec : env.unserialize raw = Except.ok t) :
    (env.filters.find? (fun b => t.matches_bind b) = none →
      (internal_process env data).1 =
        [Effect.setLogTask (some t.uid),
         Effect.logInfo "Task rejected because binds are no longer valid.",
         Effect.declareState t.uid TaskState.finished env.identity]) ∧
    (∀ a, Effect.handlerCall a ∈ (internal_process env data).1 →
      env.filters.any (fun b => t.matches_bind b) = true) ∧
    ((env.filters.find? (fun b => t.matches_bind b)).isSome
      = env.filters.any (fun b => t.matches_bind b)) := by
  refine ⟨?_, ?_, ?_⟩
  · intro hnone
    simp [internal_process, hget, hdec, hnone]
  · intro a hmem
    cases hfind : env.filters.find? (fun b => t.matches_bind b) with
    | none =>
      have h0 : (internal_process env data).1 =
          [Effect.setLogTask (some t.uid),
           Effect.logInfo "Task rejected because binds are no longer valid.",
           Effect.declareState t.uid TaskState.finished env.identity] := by
        simp [internal_process, hget, hdec, hfind]
      rw [h0] at hmem
      simp at hmem
    | some bnd =>
      rw [← find?_isSome_eq_any, hfind]
      rfl
  · exact find?_isSome_eq_any env.filters _

/-- C7 witness: the concrete consumer rejects a task whose headers no
longer match, emitting only the rejection effects, and its match decision
agrees with the any decision. -/
theorem internal_process_bind_matching_witness :
    wEnv.rsGet (TASK_KEY ++ "u2") = Except.ok "raw2" ∧
    wEnv.unserialize "raw2" = Except.ok wTaskNoMatch ∧
    (internal_process wEnv "u2").1 =
      [Effect.setLogTask (some wTaskNoMatch.uid),
       Effect.logInfo "Task rejected because binds are no longer valid.",
       Effect.declareState wTaskNoMatch.uid TaskState.finished wEnv.identity] :=
  ⟨rfl, rfl,
   (internal_process_bind_matching wEnv "u2" "raw2" wTaskNoMatch rfl rfl).1 rfl⟩

/-- C8: for every matched task, every registered pre-hook is invoked and a
failing pre-hook is logged without stopping anything, the handler runs, the
consumed-counter finalization runs, every registered post-hook is invoked
with the task and the exception-or-none saved from the handler, a failing
post-hook is likewise logged without stopping anything, and the
errored-counter increment performed for the re-raised handler exception
comes after every post-hook invocation in the trace. -/
theorem internal_process_hook_pipeline (env : ConsumerEnv) (data raw : String)
    (t : Task) (bnd : List (String × String))
    (hget : env.rsGet (TASK_KEY ++ data) = Except.ok raw)
    (hdec : env.unserialize raw = Except.ok t)
    (hmatch : env.filters.find? (fun b => t.matches_bind b) = some bnd) :
    (∀ h ∈ env.preHooks,
      Effect.preHookCall h.1 t.uid ∈ (internal_process env data).1) ∧
    (∀ h ∈ env.preHooks, ∀ e, h.2 t = Except.error e →
      Effect.logException (preHookFailMsg h.1) ∈ (internal_process env data).1) ∧
    Effect.handlerCall (processArg env.argNum t) ∈ (internal_process env data).1 ∧
    (∀ h ∈ env.postHooks,
      Effect.postHookCall h.1 t.uid
          (savedExc (env.processResult (processArg env.argNum t)))
        ∈ (internal_process env data).1) ∧
    (∀ h ∈ env.postHooks, ∀ e,
      h.2 t (savedExc (env.processResult (processArg env.argNum t)))
        = Except.error e →
      Effect.logException (postHookFailMsg h.1) ∈ (internal_process env data).1) ∧
    Effect.hincrby METRICS_CONSUMED env.identity 1 ∈ (internal_process env data).1 ∧
    (∀ (i j : Nat) (e1 e2 : Effect),
      ((internal_process env data).1)[i]? = some e1 → e1.isPostHookCall = true →
      ((internal_process env data).1)[j]? = some e2 →
      e2 = Effect.hincrby METRICS_ERRORED env.identity 1 → i < j) := by
  have heq : (internal_process env data).1
      = Effect.setLogTask (some t.uid) :: matchedEffects env t := by
    simp [internal_process, hget, hdec, hmatch]
  refine ⟨?_, ?_, ?_, ?_, ?_, ?_, ?_⟩
  · intro h hmem
    rw [heq]
    apply List.mem_cons_of_mem
    unfold matchedEffects
    exact List.mem_append_left _ (List.mem_append_left _ (List.mem_append_left _
      (List.mem_append_left _
        (List.mem_append_right _ (preHookCall_mem_run env.preHooks t h hmem)))))
  · intro h hmem e hfail
    rw [heq]
    apply List.mem_cons_of_mem
    unfold matchedEffects
    exact List.mem_append_left _ (List.mem_append_left _ (List.mem_append_left _
      (List.mem_append_left _
        (List.mem_append_right _ (preHook_fail_logged env.preHooks t h hmem e hfail)))))
  · rw [heq]
    apply List.mem_cons_of_mem
    unfold matchedEffects
    exact List.mem_append_left _ (List.mem_append_left _ (List.mem_append_left _
      (List.mem_append_right _ (List.mem_singleton.mpr rfl))))
  · intro h hmem
    rw [heq]
    apply List.mem_cons_of_mem
    unfold matchedEffects
    exact List.mem_append_left _ (List.mem_append_left _
      (List.mem_append_right _ (postHookCall_mem_run env.postHooks t _ h hmem)))
  · intro h hmem e hfail
    rw [heq]
    apply List.mem_cons_of_mem
    unfold matchedEffects
    exact List.mem_append_left _ (List.mem_append_left _
      (List.mem_append_right _
        (postHook_fail_logged env.postHooks t _ h hmem e hfail)))
  · rw [heq]
    apply List.mem_cons_of_mem
    unfold matchedEffects
    exact List.mem_append_right _ (List.mem_cons_self _ _)
  · rw [heq]
    have hsplit : Effect.setLogTask (some t.uid) :: matchedEffects env t
        = (Effect.setLogTask (some t.uid) ::
            ([Effect.logInfo ("Received new task - " ++ t.uid),
              Effect.declareState t.uid TaskState.started env.identity]
             ++ _run_pre_hooks env.preHooks t
             ++ [Effect.handlerCall (processArg env.argNum t)]
             ++ _run_post_hooks env.postHooks t
                 (savedExc (env.processResult (processArg env.argNum t)))))
          ++ (handlerOutcomeEffects env t ++ finalizeEffects env t) := by
      simp [matchedEffects, List.append_assoc]
    rw [hsplit]
    refine split_before _ _ (fun e => e.isPostHookCall = true)
      (fun e => e = Effect.hincrby METRICS_ERRORED env.identity 1) ?_ ?_
    · intro e he hp
      obtain ⟨n, u, x, rfl⟩ := postHookCall_of_isPostHookCall e hp
      rcases List.mem_append.mp he with hR | hF
      · rcases mem_handlerOutcome_shape env t _ hR with ⟨m, hm⟩ | hOr
        · exact Effect.noConfusion hm
        · rcases hOr with hm | ⟨m, hm⟩
          · exact Effect.noConfusion hm
          · exact Effect.noConfusion hm
      · unfold finalizeEffects at hF
        rcases List.mem_cons.mp hF with hc | hF2
        · exact Effect.noConfusion hc
        · cases ha : t.asynchronic with
          | true => rw [ha] at hF2; simp at hF2
          | false => rw [ha] at hF2; simp at hF2
    · intro e he hp
      subst hp
      rcases List.mem_cons.mp he with hc | he2
      · exact Effect.noConfusion hc
      · rcases List.mem_append.mp he2 with h3 | hQ
        · rcases List.mem_append.mp h3 with h2 | hH
          · rcases List.mem_append.mp h2 with hA | hP
            · simp [METRICS_ERRORED] at hA
            · rcases mem_run_pre_hooks_shape _ _ _ hP with ⟨n, hn⟩ | ⟨m, hm⟩
              · exact Effect.noConfusion hn
              · exact Effect.noConfusion hm
          · simp at hH
        · rcases mem_run_post_hooks_shape _ _ _ _ hQ with ⟨n, hn⟩ | ⟨m, hm⟩
          · exact Effect.noConfusion hn
          · exact Effect.noConfusion hm

/-- C8 witness: with the failing named pre-hook the concrete consumer still
calls the handler and the post-hook and finalizes; a failing named
post-hook is logged; with a failing handler the post-hook invocation at
index 6 precedes the errored increment at index 7. -/
theorem internal_process_hook_pipeline_witness :
    Effect.preHookCall (some "pre1") "u1" ∈ (internal_process wEnv "u1").1 ∧
    Effect.logException (preHookFailMsg (some "pre1")) ∈ (internal_process wEnv "u1").1 ∧
    Effect.handlerCall (processArg wEnv.argNum wTask) ∈ (internal_process wEnv "u1").1 ∧
    Effect.postHookCall none "u1"
        (savedExc (wEnv.processResult (processArg wEnv.argNum wTask)))
      ∈ (internal_process wEnv "u1").1 ∧
    Effect.logException (postHookFailMsg (some "post1"))
      ∈ (internal_process wEnvPostFail "u1").1 ∧
    Effect.hincrby METRICS_CONSUMED "karton.test" 1 ∈ (internal_process wEnv "u1").1 ∧
    (6 : Nat) < 7 :=
  ⟨(internal_process_hook_pipeline wEnv "u1" "raw1" wTask [("type", "sample")]
      rfl rfl rfl).1
      (some "pre1", fun _ => Except.error (KErr.hookFailed "pre1 broke"))
      (List.mem_singleton.mpr rfl),
   (internal_process_hook_pipeline wEnv "u1" "raw1" wTask [("type", "sample")]
      rfl rfl rfl).2.1
      (some "pre1", fun _ => Except.error (KErr.hookFailed "pre1 broke"))
      (List.mem_singleton.mpr rfl) (KErr.hookFailed "pre1 broke") rfl,
   (internal_process_hook_pipeline wEnv "u1" "raw1" wTask [("type", "sample")]
      rfl rfl rfl).2.2.1,
   (internal_process_hook_pipeline wEnv "u1" "raw1" wTask [("type", "sample")]
      rfl rfl rfl).2.2.2.1
      (none, fun _ _ => Except.ok ()) (List.mem_singleton.mpr rfl),
   (internal_process_hook_pipeline wEnvPostFail "u1" "raw1" wTask [("type", "sample")]
      rfl rfl rfl).2.2.2.2.1
      (some "post1", fun _ _ => Except.error (KErr.hookFailed "post1 broke"))
      (List.mem_singleton.mpr rfl) (KErr.hookFailed "post1 broke") rfl,
   (internal_process_hook_pipeline wEnv "u1" "raw1" wTask [("type", "sample")]
      rfl rfl rfl).2.2.2.2.2.1,
   (internal_process_hook_pipeline wEnvFail "u1" "raw1" wTask [("type", "sample")]
      rfl rfl rfl).2.2.2.2.2.2 6 7
      (Effect.postHookCall none "u1" (some (KErr.handlerFailed "proc broke")))
      (Effect.hincrby METRICS_ERRORED "karton.test" 1) rfl rfl rfl rfl⟩

/-- C9: for every matched task, when the task is not asynchronic the very
last effect of internal_process is the FINISHED declaration under the
identity of the consumer regardless of the handler outcome, and when the
task is asynchronic no FINISHED declaration occurs at all. -/
theorem internal_process_finished_declaration (env : ConsumerEnv)
    (data raw : String) (t : Task) (bnd : List (String × String))
    (hget : env.rsGet (TASK_KEY ++ data) = Except.ok raw)
    (hdec : env.unserialize raw = Except.ok t)
    (hmatch : env.filters.find? (fun b => t.matches_bind b) = some bnd) :
    (t.asynchronic = false →
      ((internal_process env data).1).getLast?
        = some (Effect.declareState t.uid TaskState.finished env.identity)) ∧
    (t.asynchronic = true →
      Effect.declareState t.uid TaskState.finished env.identity
        ∉ (internal_process env data).1) := by
  have heq : (internal_process env data).1
      = Effect.setLogTask (some t.uid) :: matchedEffects env t := by
    simp [internal_process, hget, hdec, hmatch]
  constructor
  · intro ha
    rw [heq]
    have hfin : finalizeEffects env t
        = [Effect.hincrby METRICS_CONSUMED env.identity 1,
           Effect.declareState t.uid TaskState.finished env.identity] := by
      unfold finalizeEffects
      rw [ha]
      rfl
    have hform : Effect.setLogTask (some t.uid) :: matchedEffects env t
        = (Effect.setLogTask (some t.uid) ::
            ([Effect.logInfo ("Received new task - " ++ t.uid),
              Effect.declareState t.uid TaskState.started env.identity]
             ++ _run_pre_hooks env.preHooks t
             ++ [Effect.handlerCall (processArg env.argNum t)]
             ++ _run_post_hooks env.postHooks t
                 (savedExc (env.processResult (processArg env.argNum t)))
             ++ handlerOutcomeEffects env t
             ++ [Effect.hincrby METRICS_CONSUMED env.identity 1]))
          ++ [Effect.declareState t.uid TaskState.finished env.identity] := by
      simp [matchedEffects, hfin, List.append_assoc]
    rw [hform, List.getLast?_append]
    rfl
  · intro ha hmem
    rw [heq] at hmem
    rcases List.mem_cons.mp hmem with hc | hm2
    · exact Effect.noConfusion hc
    · unfold matchedEffects at hm2
      rcases List.mem_append.mp hm2 with h5 | hF
      · rcases List.mem_append.mp h5 with h4 | hR
        · rcases List.mem_append.mp h4 with h3 | hQ
          · rcases List.mem_append.mp h3 with h2 | hH
            · rcases List.mem_append.mp h2 with hA | hP
              · simp at hA
              · rcases mem_run_pre_hooks_shape _ _ _ hP with ⟨n, hn⟩ | ⟨m, hm⟩
                · exact Effect.noConfusion hn
                · exact Effect.noConfusion hm
            · simp at hH
          · rcases mem_run_post_hooks_shape _ _ _ _ hQ with ⟨n, hn⟩ | ⟨m, hm⟩
            · exact Effect.noConfusion hn
            · exact Effect.noConfusion hm
        · rcases mem_handlerOutcome_shape env t _ hR with ⟨m, hm⟩ | hOr
          · exact Effect.noConfusion hm
          · rcases hOr with hm | ⟨m, hm⟩
            · exact Effect.noConfusion hm
            · exact Effect.noConfusion hm
      · unfold finalizeEffects at hF
        rw [ha] at hF
        simp at hF

/-- C9 witness: the concrete non-asynchronic task ends with the FINISHED
declaration; the concrete asynchronic task never gets one. -/
theorem internal_process_finished_declaration_witness :
    wTask.asynchronic = false ∧
    ((internal_process wEnv "u1").1).getLast?
      = some (Effect.declareState "u1" TaskState.finished "karton.test") ∧
    wTaskAsync.asynchronic = true ∧
    Effect.declareState "u3" TaskState.finished "karton.test"
      ∉ (internal_process wEnv "u3").1 :=
  ⟨rfl,
   (internal_process_finished_declaration wEnv "u1" "raw1" wTask
      [("type", "sample")] rfl rfl rfl).1 rfl,
   rfl,
   (internal_process_finished_declaration wEnv "u3" "raw3" wTaskAsync
      [("type", "sample")] rfl rfl rfl).2 rfl⟩

/-- C10: for every fetched task matching no bind, the rejection performs
the FINISHED declaration and nothing else of note: no STARTED declaration,
no pre-hook, handler or post-hook invocation, and neither the consumed nor
the errored counter is incremented. -/
theorem internal_process_reject_frame (env : ConsumerEnv) (data raw : String)
    (t : Task)
    (hget : env.rsGet (TASK_KEY ++ data) = Except.ok raw)
    (hdec : env.unserialize raw = Except.ok t)
    (hnone : env.filters.find? (fun b => t.matches_bind b) = none) :
    Effect.declareState t.uid TaskState.finished env.identity
      ∈ (internal_process env data).1 ∧
    (∀ u i, Effect.declareState u TaskState.started i ∉ (internal_process env data).1) ∧
    (∀ n u, Effect.preHookCall n u ∉ (internal_process env data).1) ∧
    (∀ a, Effect.handlerCall a ∉ (internal_process env data).1) ∧
    (∀ n u x, Effect.postHookCall n u x ∉ (internal_process env data).1) ∧
    Effect.hincrby METRICS_CONSUMED env.identity 1 ∉ (internal_process env data).1 ∧
    Effect.hincrby METRICS_ERRORED env.identity 1 ∉ (internal_process env data).1 := by
  have h0 : (internal_process env data).1 =
      [Effect.setLogTask (some t.uid),
       Effect.logInfo "Task rejected because binds are no longer valid.",
       Effect.declareState t.uid TaskState.finished env.identity] := by
    simp [internal_process, hget, hdec, hnone]
  refine ⟨?_, ?_, ?_, ?_, ?_, ?_, ?_⟩ <;> simp [h0]

/-- C10 witness: the concrete rejected task gets its FINISHED declaration
and no started declaration, hook, handler or counter effect. -/
theorem internal_process_reject_frame_witness :
    wEnv.unserialize "raw2" = Except.ok wTaskNoMatch ∧
    Effect.declareState "u2" TaskState.finished "karton.test"
      ∈ (internal_process wEnv "u2").1 ∧
    Effect.handlerCall (some wTaskNoMatch) ∉ (internal_process wEnv "u2").1 ∧
    Effect.hincrby METRICS_CONSUMED "karton.test" 1 ∉ (internal_process wEnv "u2").1 :=
  ⟨rfl,
   (internal_process_reject_frame wEnv "u2" "raw2" wTaskNoMatch rfl rfl rfl).1,
   (internal_process_reject_frame wEnv "u2" "raw2" wTaskNoMatch rfl rfl rfl).2.2.2.1
     (some wTaskNoMatch),
   (internal_process_reject_frame wEnv "u2" "raw2" wTaskNoMatch rfl rfl rfl).2.2.2.2.2.1⟩

end Karton
